import Mathlib

set_option maxRecDepth 100000

namespace JustDictate

/-! Shallow embedding of `src/dictation_engine.py` (class `DictationEngine`)
and the configuration fields it reads from `src/config_manager.py`.

The engine is driven by three kinds of externally scheduled callbacks: the
pynput listener thread (`_on_press` / `_on_release`), the audio-device
callback (appending chunks), and worker threads running
`_transcribe_and_type`.  We model one interleaved execution as a list of
events applied to an explicit state by a step function; each event runs one
callback to completion, mirroring the source line by line. -/

/-- Audio sample.  The source records float32 amplitudes in [-1, 1]; no claim
depends on amplitude arithmetic (the RMS level notification is the only
consumer of values and no claim mentions it), so samples are carried as
integers and the level callback is not modelled. -/
abbrev Sample := Int

/-- Right Command vk code on macOS (source: `VK_RIGHT_CMD = 0x36`). -/
def VK_RIGHT_CMD : Nat := 0x36

/-- Escape vk code on macOS (source: `VK_ESCAPE = 0x35`). -/
def VK_ESCAPE : Nat := 0x35

/-- Seconds after a paste during which Escape undoes it
(source: `UNDO_WINDOW = 5.0`). -/
def UNDO_WINDOW : ℚ := 5

/-- The configuration field `_transcribe_and_type` reads at each completion
via `config_manager.load()`.  `load()` merges `DEFAULTS`, so the key
`add_trailing_space` is always present (default `True`); hence a plain Bool. -/
structure Config where
  add_trailing_space : Bool
deriving DecidableEq

/-- A key event as classified by `_get_vk`: a key carrying a vk code, the
named Escape key (`keyboard.Key.esc`, handled even when it carries no vk),
or an unmapped named key (`_get_vk` returns `None`; ignored). -/
inductive KeyEvt
  | code (vk : Nat)
  | escKey
  | unknown
deriving DecidableEq

/-- Observable notifications and external effects, in emission order.
Instrumentation markers for effects the claims talk about:
`backendCalled a` marks the call `self.transcribe_fn(audio)`;
`pasted t` marks the call `self._auto_type(t)`;
`workerSpawned` marks `threading.Thread(target=self._transcribe_and_type).start()`;
`undoKeystroke` marks the synthetic Cmd+Z posted by `_undo_last_paste`. -/
inductive Out
  | recordingStarted
  | recordingStopped
  | recordingCancelled
  | recordingDuration (seconds : ℚ)
  | transcriptionStarted
  | transcriptionDone (text : String)
  | error (message : String)
  | pasteUndone
  | undoKeystroke
  | workerSpawned
  | backendCalled (audio : List Sample)
  | pasted (text : String)
deriving DecidableEq

/-- The mutable fields of `DictationEngine` the claims depend on, plus two
bits of execution context: `listenerActive` (a pynput listener is installed,
i.e. between `start()` and `stop()`) and `workerActive` (at least one
spawned `_transcribe_and_type` worker thread has not yet run). -/
structure EngineState where
  recording : Bool
  recordingStartTime : Option ℚ
  cancelled : Bool
  lastPasteTime : Option ℚ
  audioChunks : List (List Sample)
  streamOpen : Bool
  heldVk : Finset Nat
  listenerActive : Bool
  workerActive : Bool
deriving DecidableEq

/-- Engine state right after `__init__()` followed by `start()`. -/
def initState : EngineState :=
  { recording := false, recordingStartTime := none, cancelled := false,
    lastPasteTime := none, audioChunks := [], streamOpen := false,
    heldVk := ∅, listenerActive := true, workerActive := false }

/-- The session phase in the spec's sense, derived from the engine state:
Recording while `_recording` is set, Transcribing while a dispatched worker
is in flight, Idle otherwise.  (The source keeps no explicit phase field.) -/
inductive Phase
  | Idle
  | Recording
  | Transcribing
deriving DecidableEq

def specPhase (s : EngineState) : Phase :=
  if s.recording then Phase.Recording
  else if s.workerActive then Phase.Transcribing
  else Phase.Idle

/-- `_start_recording` (lines 130-154): sets `_recording`, records the start
time, resets `_audio_chunks`, opens and starts the input stream, and emits
`on_recording_start`.  Note: the source does NOT reset `_cancelled` here. -/
def startRecording (t : ℚ) (s : EngineState) : EngineState × List Out :=
  ({ s with recording := true, recordingStartTime := some t,
             audioChunks := [], streamOpen := true },
   [Out.recordingStarted])

/-- `_cancel_recording` (lines 156-168): sets `_cancelled`, clears
`_recording` and the start time, stops and closes the stream, discards the
buffered chunks, and emits `on_recording_cancel`. -/
def cancelRecording (s : EngineState) : EngineState × List Out :=
  ({ s with cancelled := true, recording := false, recordingStartTime := none,
             streamOpen := false, audioChunks := [] },
   [Out.recordingCancelled])

/-- `_undo_last_paste` (lines 180-196): posts a synthetic Cmd+Z, clears
`_last_paste_time`, and emits `on_paste_undo`. -/
def undoLastPaste (s : EngineState) : EngineState × List Out :=
  ({ s with lastPasteTime := none }, [Out.undoKeystroke, Out.pasteUndone])

/-- `_handle_escape` (lines 170-178): cancel if `_recording`, else undo the
last paste when one happened less than `UNDO_WINDOW` seconds ago. -/
def handleEscape (t : ℚ) (s : EngineState) : EngineState × List Out :=
  if s.recording then cancelRecording s
  else
    match s.lastPasteTime with
    | some tp => if t - tp < UNDO_WINDOW then undoLastPaste s else (s, [])
    | none => (s, [])

/-- `_stop_recording` (lines 198-212): clears `_recording`, computes the
duration from the recorded start time (when present), closes the stream,
emits `on_recording_stop` and then `on_recording_duration`.  The buffered
chunks are left in place. -/
def stopRecording (t : ℚ) (s : EngineState) : EngineState × List Out :=
  match s.recordingStartTime with
  | some t0 =>
      ({ s with recording := false, recordingStartTime := none,
                 streamOpen := false },
       [Out.recordingStopped, Out.recordingDuration (t - t0)])
  | none =>
      ({ s with recording := false, streamOpen := false },
       [Out.recordingStopped])

/-- `_on_press` (lines 102-115): Escape (named key, or vk `0x35`) is routed
to `_handle_escape` before touching the held set; any other vk is added to
`_held_vk`; recording starts when not already recording and the chord is a
subset of the held set.  Named keys without a vk are ignored. -/
def onPress (chord : Finset Nat) (k : KeyEvt) (t : ℚ) (s : EngineState) :
    EngineState × List Out :=
  match k with
  | KeyEvt.escKey => handleEscape t s
  | KeyEvt.unknown => (s, [])
  | KeyEvt.code vk =>
      if vk = VK_ESCAPE then handleEscape t s
      else
        let s1 := { s with heldVk := insert vk s.heldVk }
        if s1.recording = false ∧ chord ⊆ s1.heldVk then startRecording t s1
        else (s1, [])

/-- `_on_release` (lines 117-128): discard the vk from `_held_vk`; if
recording and the chord is no longer fully held, stop the recording, then:
if `_cancelled` is set, clear it and return (no dispatch); otherwise spawn a
`_transcribe_and_type` worker thread.  Keys without a vk are ignored. -/
def onRelease (chord : Finset Nat) (k : KeyEvt) (t : ℚ) (s : EngineState) :
    EngineState × List Out :=
  match k with
  | KeyEvt.escKey => (s, [])
  | KeyEvt.unknown => (s, [])
  | KeyEvt.code vk =>
      let s1 := { s with heldVk := s.heldVk.erase vk }
      if s1.recording = true ∧ ¬ chord ⊆ s1.heldVk then
        let r := stopRecording t s1
        if r.1.cancelled then ({ r.1 with cancelled := false }, r.2)
        else ({ r.1 with workerActive := true }, r.2 ++ [Out.workerSpawned])
      else (s1, [])

/-- `_transcribe_and_type` (lines 214-252), the worker body, run against the
engine state at the moment the thread is scheduled (the source reads
`self._audio_chunks` at run time, not at spawn time).  Early returns: empty
chunk list; duration `len(audio) / 16000` under `0.3`.  Otherwise emits
`on_transcription_start` and calls the backend inside the try block: a
missing backend raises `RuntimeError("No transcribe function set.")`; any
exception is caught and reported through `on_error`.  On success, empty text
reports `on_transcription_done("")`; non-empty text gets a trailing space
when the freshly loaded config says so, is pasted via `_auto_type`, arms
`_last_paste_time`, and is reported through `on_transcription_done`. -/
def transcribeAndType (tf : Option (List Sample → Except String String))
    (cfg : Config) (t : ℚ) (s : EngineState) : EngineState × List Out :=
  if s.audioChunks = [] then ({ s with workerActive := false }, [])
  else if ((s.audioChunks.flatten.length : ℚ) / 16000) < 3 / 10 then
    ({ s with workerActive := false }, [])
  else
    match tf with
    | none =>
        ({ s with workerActive := false },
         [Out.transcriptionStarted, Out.error "No transcribe function set."])
    | some f =>
        match f s.audioChunks.flatten with
        | Except.error e =>
            ({ s with workerActive := false },
             [Out.transcriptionStarted, Out.backendCalled s.audioChunks.flatten,
              Out.error e])
        | Except.ok text =>
            if text = "" then
              ({ s with workerActive := false },
               [Out.transcriptionStarted, Out.backendCalled s.audioChunks.flatten,
                Out.transcriptionDone ""])
            else
              ({ s with workerActive := false, lastPasteTime := some t },
               [Out.transcriptionStarted, Out.backendCalled s.audioChunks.flatten,
                Out.pasted (if cfg.add_trailing_space then text ++ " " else text),
                Out.transcriptionDone
                  (if cfg.add_trailing_space then text ++ " " else text)])

/-- `stop` (lines 78-84), the public stop: stop the active recording via
`_stop_recording` (no worker is spawned here), then stop and drop the
listener.  Note it does not consult or spawn workers. -/
def stopEngine (t : ℚ) (s : EngineState) : EngineState × List Out :=
  if s.recording then
    let r := stopRecording t s
    ({ r.1 with listenerActive := false }, r.2)
  else ({ s with listenerActive := false }, [])

/-- One scheduled callback.  `press`/`release` carry the wall-clock time the
handler would read via `time.time()`; `chunk` is one audio-callback delivery;
`workerRun` is a spawned worker thread getting scheduled, carrying the config
that `config_manager.load()` returns at that moment and the wall-clock time;
`engineStop` is a call of the public `stop()`. -/
inductive Event
  | press (k : KeyEvt) (t : ℚ)
  | release (k : KeyEvt) (t : ℚ)
  | chunk (c : List Sample)
  | workerRun (cfg : Config) (t : ℚ)
  | engineStop (t : ℚ)

/-- Apply one event.  Press/release reach the handlers only while the pynput
listener is installed; audio chunks are delivered only while the stream is
open; a worker can run only if one was spawned and is pending. -/
def step (chord : Finset Nat) (tf : Option (List Sample → Except String String))
    (s : EngineState) : Event → EngineState × List Out
  | Event.press k t => if s.listenerActive then onPress chord k t s else (s, [])
  | Event.release k t => if s.listenerActive then onRelease chord k t s else (s, [])
  | Event.chunk c =>
      if s.streamOpen then ({ s with audioChunks := s.audioChunks ++ [c] }, [])
      else (s, [])
  | Event.workerRun cfg t =>
      if s.workerActive then transcribeAndType tf cfg t s else (s, [])
  | Event.engineStop t => stopEngine t s

/-- Run a list of events, collecting all emitted outputs in order. -/
def runEngine (chord : Finset Nat)
    (tf : Option (List Sample → Except String String)) :
    EngineState → List Event → EngineState × List Out
  | s, [] => (s, [])
  | s, e :: evs =>
      let r := step chord tf s e
      let r2 := runEngine chord tf r.1 evs
      (r2.1, r.2 ++ r2.2)

/-! Clipboard model for `_auto_type` (lines 254-284).  The method is a
straight-line sequence of external operations; we record that sequence and
interpret it against a clipboard.  `readResult` is what the initial
`pbpaste` produced: `some c` when the subprocess succeeded and the clipboard
held `c`, `none` when it raised (the except branch sets `old_clip = ""`).
`pasteOk` records whether the synthetic Cmd+V had its intended effect; the
Quartz event post is fire-and-forget, so that flag influences neither
control flow nor the clipboard. -/

inductive ClipOp
  | readClip
  | writeClip (s : String)
  | pasteKeystroke (ok : Bool)
  | settle (seconds : ℚ)
deriving DecidableEq

/-- The operation sequence `_auto_type(text)` performs, in source order:
read old clipboard, copy `text`, sleep 0.05, post Cmd+V, sleep 0.15,
copy the retained `old_clip` back. -/
def autoTypeOps (readResult : Option String) (pasteOk : Bool) (text : String) :
    List ClipOp :=
  let oldClip := readResult.getD ""
  [ClipOp.readClip, ClipOp.writeClip text, ClipOp.settle (5 / 100),
   ClipOp.pasteKeystroke pasteOk, ClipOp.settle (15 / 100),
   ClipOp.writeClip oldClip]

/-- Interpret clipboard operations: only `pbcopy` writes change the
clipboard. -/
def runClip (clip : String) : List ClipOp → String
  | [] => clip
  | ClipOp.writeClip s :: ops => runClip s ops
  | ClipOp.readClip :: ops => runClip clip ops
  | ClipOp.pasteKeystroke _ :: ops => runClip clip ops
  | ClipOp.settle _ :: ops => runClip clip ops

/-- Recognizer for `error` notifications, used to count them. -/
def isErrorOut : Out → Bool
  | Out.error _ => true
  | _ => false

/-- The default chord: the right-command preset, vk codes `[0x36]`. -/
def chordRC : Finset Nat := {VK_RIGHT_CMD}

/-- Witness state: a recording in progress with the right-command chord
fully held, started at time 0. -/
def wRecHeld : EngineState := { initState with recording := true, recordingStartTime := some 0, streamOpen := true, heldVk := chordRC }

/-- Witness state: the state `wRecHeld` reaches when cancelled. -/
def wCancelled : EngineState := { initState with cancelled := true, heldVk := chordRC }

/-- Witness state: idle engine with a paste armed at time 0. -/
def wPaste : EngineState := { initState with lastPasteTime := some 0 }

/-- Witness state: a pending worker over a single 100 ms chunk
(1600 samples, duration 0.1 s, under the 0.3 s threshold). -/
def wShort : EngineState := { initState with workerActive := true, audioChunks := [List.replicate 1600 0] }

/-- Witness state: a pending worker over one 300 ms buffer (4800 samples,
duration exactly 0.3 s, which is not "shorter than 0.3 s"). -/
def wLong : EngineState := { initState with workerActive := true, audioChunks := [List.replicate 4800 0] }

/-- A concrete backend for the C8 witness: it recognizes the 0.3 s zero
buffer and returns "hello". -/
def wBackend : List Sample → Except String String := fun _ => Except.ok "hello"

/-- The state after one full record-and-release cycle (press right command
at 0, one 0.3 s chunk, release at 1): a worker has been dispatched and has
not yet run, so the spec phase is Transcribing. -/
def c3state : EngineState :=
  (runEngine chordRC none initState
    [Event.press (KeyEvt.code VK_RIGHT_CMD) 0,
     Event.chunk (List.replicate 4800 0),
     Event.release (KeyEvt.code VK_RIGHT_CMD) 1]).1

/-- The C1 failing input: hold the chord (start session 1), press Escape
(cancel session 1), release the chord, hold the chord again (start session
2, never cancelled), record 0.3 s of audio, release the chord. -/
def c1trace : List Event :=
  [Event.press (KeyEvt.code VK_RIGHT_CMD) 0,
   Event.press KeyEvt.escKey 1,
   Event.release (KeyEvt.code VK_RIGHT_CMD) 2,
   Event.press (KeyEvt.code VK_RIGHT_CMD) 3,
   Event.chunk (List.replicate 4800 0),
   Event.release (KeyEvt.code VK_RIGHT_CMD) 5]

/-- The backend used in the C9 counterexample. -/
def c9backend : List Sample → Except String String := fun _ => Except.ok "hi"

/-- Session A's audio in the C9 counterexample: 0.3 s of zeros. -/
def cA : List Sample := List.replicate 4800 0

/-- Session B's audio in the C9 counterexample: 0.3 s of ones. -/
def cB : List Sample := List.replicate 4800 1

/-- C9 counterexample setup: session A (press at 0, 0.3 s of zeros, release
at 1 — which dispatches a worker W), then session B started (press at 2)
with 0.3 s of ones buffered, while W is still unscheduled.  The worker reads
`self._audio_chunks` when it runs, not when it is spawned. -/
def c9state : EngineState :=
  (runEngine chordRC (some c9backend) initState
    [Event.press (KeyEvt.code VK_RIGHT_CMD) 0,
     Event.chunk cA,
     Event.release (KeyEvt.code VK_RIGHT_CMD) 1,
     Event.press (KeyEvt.code VK_RIGHT_CMD) 2,
     Event.chunk cB]).1

/-- The explicit value of `c9state`: session B recording, worker pending. -/
def wB : EngineState :=
  { recording := true, recordingStartTime := some 2, cancelled := false,
    lastPasteTime := none, audioChunks := [cB], streamOpen := true,
    heldVk := chordRC, listenerActive := true, workerActive := true }

/-! Helper lemmas about which outputs the individual handlers can emit. -/

lemma handleEscape_no_start (t : ℚ) (s : EngineState) :
    Out.recordingStarted ∉ (handleEscape t s).2 := by
  unfold handleEscape cancelRecording undoLastPaste
  repeat' split
  all_goals simp

lemma stopRecording_snd_no_start (t : ℚ) (s : EngineState) :
    Out.recordingStarted ∉ (stopRecording t s).2 := by
  cases h : s.recordingStartTime <;> simp [stopRecording, h]

lemma onRelease_no_start (chord : Finset Nat) (k : KeyEvt) (t : ℚ)
    (s : EngineState) : Out.recordingStarted ∉ (onRelease chord k t s).2 := by
  cases k with
  | escKey => simp [onRelease]
  | unknown => simp [onRelease]
  | code vk =>
      simp only [onRelease]
      split
      · split
        · exact stopRecording_snd_no_start t _
        · simp only [List.mem_append]
          rintro (h | h)
          · exact stopRecording_snd_no_start t _ h
          · simp at h
      · simp

lemma transcribeAndType_no_start
    (tf : Option (List Sample → Except String String)) (cfg : Config)
    (t : ℚ) (s : EngineState) :
    Out.recordingStarted ∉ (transcribeAndType tf cfg t s).2 := by
  unfold transcribeAndType
  repeat' split
  all_goals simp

/-- C4: whenever an Escape event (the named Escape key or vk 0x35) is
observed while the session is Recording, the session is cancelled — audio
discarded, stream closed, `recordingCancelled` emitted, nothing else — no
undo is performed, and the cancelled session is never dispatched: a
subsequent chord release from the cancelled state spawns no worker.  The
held-key set is untouched, so this holds even if the chord is still fully
held. -/
theorem C4_escape_while_recording_cancels
    (chord : Finset Nat) (tf : Option (List Sample → Except String String))
    (s : EngineState) (t : ℚ)
    (hl : s.listenerActive = true) (hr : s.recording = true) :
    step chord tf s (Event.press KeyEvt.escKey t) =
      ({ s with cancelled := true, recording := false, recordingStartTime := none,
                streamOpen := false, audioChunks := [] }, [Out.recordingCancelled])
    ∧ step chord tf s (Event.press (KeyEvt.code VK_ESCAPE) t) =
      ({ s with cancelled := true, recording := false, recordingStartTime := none,
                streamOpen := false, audioChunks := [] }, [Out.recordingCancelled])
    ∧ (∀ (k : KeyEvt) (u : ℚ), Out.workerSpawned ∉
        (step chord tf
          ({ s with cancelled := true, recording := false, recordingStartTime := none,
                    streamOpen := false, audioChunks := [] }) (Event.release k u)).2) := by
  refine ⟨?_, ?_, ?_⟩
  · simp [step, hl, onPress, handleEscape, hr, cancelRecording]
  · simp [step, hl, onPress, handleEscape, hr, cancelRecording]
  · intro k u
    cases k <;> simp [step, hl, onRelease]

/-- C4 witness: Escape pressed while recording with the chord (right
command) still fully held. -/
theorem C4_escape_while_recording_cancels_witness :
    step chordRC none wRecHeld (Event.press KeyEvt.escKey 1) =
      (wCancelled, [Out.recordingCancelled])
    ∧ step chordRC none wRecHeld (Event.press (KeyEvt.code VK_ESCAPE) 1) =
      (wCancelled, [Out.recordingCancelled]) := by
  have h := C4_escape_while_recording_cancels chordRC none wRecHeld 1 rfl rfl
  exact ⟨h.1, h.2.1⟩

/-- C5: an Escape observed while Idle undoes the last paste exactly once iff
strictly less than `UNDO_WINDOW` (5.0) seconds elapsed since the paste,
clearing the undo state; otherwise it is a no-op, and a second Escape after
a successful undo is a no-op. -/
theorem C5_escape_idle_undo_window
    (chord : Finset Nat) (tf : Option (List Sample → Except String String))
    (s : EngineState) (t tp : ℚ)
    (hl : s.listenerActive = true)
    (hidle : specPhase s = Phase.Idle)
    (hp : s.lastPasteTime = some tp) :
    (Out.pasteUndone ∈ (step chord tf s (Event.press KeyEvt.escKey t)).2 ↔
        t - tp < UNDO_WINDOW)
    ∧ (t - tp < UNDO_WINDOW →
        step chord tf s (Event.press KeyEvt.escKey t) =
          ({ s with lastPasteTime := none }, [Out.undoKeystroke, Out.pasteUndone])
        ∧ ∀ u : ℚ, Out.pasteUndone ∉
            (step chord tf ({ s with lastPasteTime := none } : EngineState)
              (Event.press KeyEvt.escKey u)).2)
    ∧ (¬ t - tp < UNDO_WINDOW →
        step chord tf s (Event.press KeyEvt.escKey t) = (s, [])) := by
  have hr : s.recording = false := by
    cases hsr : s.recording with
    | false => rfl
    | true => simp [specPhase, hsr] at hidle
  refine ⟨?_, ?_, ?_⟩
  · by_cases hw : t - tp < UNDO_WINDOW <;>
      simp [step, hl, onPress, handleEscape, hr, hp, hw, undoLastPaste]
  · intro hw
    refine ⟨by simp [step, hl, onPress, handleEscape, hr, hp, hw, undoLastPaste], ?_⟩
    intro u
    simp [step, hl, onPress, handleEscape, hr]
  · intro hw
    simp [step, hl, onPress, handleEscape, hr, hp, hw]

/-- C5 witness: a paste at time 0, Escape at time 1 (inside the window). -/
theorem C5_escape_idle_undo_window_witness :
    (Out.pasteUndone ∈ (step chordRC none wPaste (Event.press KeyEvt.escKey 1)).2 ↔
        (1 : ℚ) - 0 < UNDO_WINDOW)
    ∧ ((1 : ℚ) - 0 < UNDO_WINDOW →
        step chordRC none wPaste (Event.press KeyEvt.escKey 1) =
          (initState, [Out.undoKeystroke, Out.pasteUndone])
        ∧ ∀ u : ℚ, Out.pasteUndone ∉
            (step chordRC none initState (Event.press KeyEvt.escKey u)).2)
    ∧ (¬ (1 : ℚ) - 0 < UNDO_WINDOW →
        step chordRC none wPaste (Event.press KeyEvt.escKey 1) = (wPaste, [])) :=
  C5_escape_idle_undo_window chordRC none wPaste 1 0 rfl rfl rfl

/-- C6: a worker run over a buffer of duration strictly under 0.3 s (sample
count / 16000) is a silent no-op: no `transcriptionStarted`, no backend
call, no error — the step emits nothing, the worker just ends, and if the
engine is not recording the phase is Idle afterwards. -/
theorem C6_short_recording_silent_noop
    (chord : Finset Nat) (tf : Option (List Sample → Except String String))
    (cfg : Config) (t : ℚ) (s : EngineState)
    (hw : s.workerActive = true)
    (hshort : ((s.audioChunks.flatten.length : ℚ) / 16000) < 3 / 10) :
    step chord tf s (Event.workerRun cfg t) = ({ s with workerActive := false }, [])
    ∧ (s.recording = false →
        specPhase (step chord tf s (Event.workerRun cfg t)).1 = Phase.Idle) := by
  have h1 : step chord tf s (Event.workerRun cfg t) =
      ({ s with workerActive := false }, []) := by
    by_cases hempty : s.audioChunks = []
    · simp [step, hw, transcribeAndType, hempty]
    · have hs : step chord tf s (Event.workerRun cfg t) =
          transcribeAndType tf cfg t s := by simp [step, hw]
      rw [hs]
      unfold transcribeAndType
      rw [if_neg hempty, if_pos hshort]
  refine ⟨h1, fun hrec => ?_⟩
  rw [h1]
  simp [specPhase, hrec]

/-- C6 witness: a worker run over 0.1 s of audio is a silent no-op. -/
theorem C6_short_recording_silent_noop_witness :
    step chordRC none wShort (Event.workerRun ⟨true⟩ 7) =
      ({ wShort with workerActive := false }, [])
    ∧ (wShort.recording = false →
        specPhase (step chordRC none wShort (Event.workerRun ⟨true⟩ 7)).1 =
          Phase.Idle) :=
  C6_short_recording_silent_noop chordRC none ⟨true⟩ 7 wShort rfl
    (by norm_num [wShort, initState])

/-- C7: a worker run that reaches the backend call (non-trivial audio) and
fails — the backend absent, or the backend raising — emits exactly one
`error` notification, no `transcriptionDone` and no paste, leaves the paste
undo state untouched, ends the worker (never stuck in Transcribing), and if
the engine is not recording the phase is Idle afterwards.  The absence
message is the caught `RuntimeError("No transcribe function set.")`; a raise
is reported with the exception's own message. -/
theorem C7_worker_failure_one_error
    (chord : Finset Nat) (tf : Option (List Sample → Except String String))
    (cfg : Config) (t : ℚ) (s : EngineState)
    (hw : s.workerActive = true)
    (hlong : ¬ ((s.audioChunks.flatten.length : ℚ) / 16000) < 3 / 10)
    (hfail : tf = none ∨
      ∃ f msg, tf = some f ∧ f s.audioChunks.flatten = Except.error msg) :
    ((step chord tf s (Event.workerRun cfg t)).2.filter
        (fun o => isErrorOut o)).length = 1
    ∧ (step chord tf s (Event.workerRun cfg t)).1 = { s with workerActive := false }
    ∧ (∀ txt, Out.pasted txt ∉ (step chord tf s (Event.workerRun cfg t)).2)
    ∧ (∀ txt, Out.transcriptionDone txt ∉ (step chord tf s (Event.workerRun cfg t)).2)
    ∧ (s.recording = false →
        specPhase (step chord tf s (Event.workerRun cfg t)).1 = Phase.Idle)
    ∧ (tf = none → (step chord tf s (Event.workerRun cfg t)).2 =
        [Out.transcriptionStarted, Out.error "No transcribe function set."])
    ∧ (∀ f msg, tf = some f → f s.audioChunks.flatten = Except.error msg →
        (step chord tf s (Event.workerRun cfg t)).2 =
          [Out.transcriptionStarted, Out.backendCalled s.audioChunks.flatten,
           Out.error msg]) := by
  have hne : ¬ s.audioChunks = [] := by
    intro h
    exact hlong (by simp [h])
  rcases hfail with rfl | ⟨f, msg, rfl, herr⟩
  · have hs : step chord none s (Event.workerRun cfg t) =
        ({ s with workerActive := false },
         [Out.transcriptionStarted, Out.error "No transcribe function set."]) := by
      have h0 : step chord none s (Event.workerRun cfg t) =
          transcribeAndType none cfg t s := by simp [step, hw]
      rw [h0]
      unfold transcribeAndType
      rw [if_neg hne, if_neg hlong]
    rw [hs]
    refine ⟨by simp [isErrorOut], rfl, ?_, ?_, ?_, fun _ => rfl, ?_⟩
    · intro txt; simp
    · intro txt; simp
    · intro hrec; simp [specPhase, hrec]
    · intro f msg h; exact absurd h (by simp)
  · have hs : step chord (some f) s (Event.workerRun cfg t) =
        ({ s with workerActive := false },
         [Out.transcriptionStarted, Out.backendCalled s.audioChunks.flatten,
          Out.error msg]) := by
      have h0 : step chord (some f) s (Event.workerRun cfg t) =
          transcribeAndType (some f) cfg t s := by simp [step, hw]
      rw [h0]
      unfold transcribeAndType
      rw [if_neg hne, if_neg hlong]
      simp [herr]
    rw [hs]
    refine ⟨by simp [isErrorOut], rfl, ?_, ?_, ?_, by simp, ?_⟩
    · intro txt; simp
    · intro txt; simp
    · intro hrec; simp [specPhase, hrec]
    · intro f2 msg2 hf2 herr2
      obtain rfl : f = f2 := by simpa using hf2
      rw [herr] at herr2
      obtain rfl : msg = msg2 := by simpa using herr2
      rfl

lemma wLong_not_short :
    ¬ ((wLong.audioChunks.flatten.length : ℚ) / 16000) < 3 / 10 := by
  norm_num [wLong, initState]

/-- C7 witness: the backend is absent (`transcribe_fn` never set) and the
buffer holds 0.3 s of audio. -/
theorem C7_worker_failure_one_error_witness :
    ((step chordRC none wLong (Event.workerRun ⟨true⟩ 9)).2.filter
        (fun o => isErrorOut o)).length = 1
    ∧ (step chordRC none wLong (Event.workerRun ⟨true⟩ 9)).1 =
        { wLong with workerActive := false }
    ∧ (∀ txt, Out.pasted txt ∉ (step chordRC none wLong (Event.workerRun ⟨true⟩ 9)).2)
    ∧ (∀ txt, Out.transcriptionDone txt ∉
        (step chordRC none wLong (Event.workerRun ⟨true⟩ 9)).2)
    ∧ (wLong.recording = false →
        specPhase (step chordRC none wLong (Event.workerRun ⟨true⟩ 9)).1 = Phase.Idle)
    ∧ (none = (none : Option (List Sample → Except String String)) →
        (step chordRC none wLong (Event.workerRun ⟨true⟩ 9)).2 =
          [Out.transcriptionStarted, Out.error "No transcribe function set."])
    ∧ (∀ (f : List Sample → Except String String) (msg : String),
        (none : Option (List Sample → Except String String)) = some f →
        f wLong.audioChunks.flatten = Except.error msg →
        (step chordRC none wLong (Event.workerRun ⟨true⟩ 9)).2 =
          [Out.transcriptionStarted, Out.backendCalled wLong.audioChunks.flatten,
           Out.error msg]) :=
  C7_worker_failure_one_error chordRC none ⟨true⟩ 9 wLong rfl wLong_not_short
    (Or.inl rfl)

/-- C8: a worker run that reaches the backend and succeeds injects text iff
the result is non-empty.  Non-empty text is pasted and reported through
`transcriptionDone` with exactly one trailing space appended when the config
read at completion time says `add_trailing_space` (the config is the
`workerRun` event's parameter, i.e. re-read via `config_manager.load()` at
that completion, not cached), and the paste undo state is armed with the
completion time.  Empty text only reports `transcriptionDone("")`: no paste,
no undo arming, no other state change. -/
theorem C8_worker_success_injection
    (chord : Finset Nat) (f : List Sample → Except String String)
    (cfg : Config) (t : ℚ) (s : EngineState) (text : String)
    (hw : s.workerActive = true)
    (hlong : ¬ ((s.audioChunks.flatten.length : ℚ) / 16000) < 3 / 10)
    (hok : f s.audioChunks.flatten = Except.ok text) :
    ((∃ txt, Out.pasted txt ∈ (step chord (some f) s (Event.workerRun cfg t)).2) ↔
        text ≠ "")
    ∧ (text = "" → step chord (some f) s (Event.workerRun cfg t) =
        ({ s with workerActive := false },
         [Out.transcriptionStarted, Out.backendCalled s.audioChunks.flatten,
          Out.transcriptionDone ""]))
    ∧ (text ≠ "" → step chord (some f) s (Event.workerRun cfg t) =
        ({ s with workerActive := false, lastPasteTime := some t },
         [Out.transcriptionStarted, Out.backendCalled s.audioChunks.flatten,
          Out.pasted (if cfg.add_trailing_space then text ++ " " else text),
          Out.transcriptionDone
            (if cfg.add_trailing_space then text ++ " " else text)])) := by
  have hne : ¬ s.audioChunks = [] := by
    intro h
    exact hlong (by simp [h])
  have h0 : step chord (some f) s (Event.workerRun cfg t) =
      transcribeAndType (some f) cfg t s := by simp [step, hw]
  by_cases htext : text = ""
  · subst htext
    have hs : step chord (some f) s (Event.workerRun cfg t) =
        ({ s with workerActive := false },
         [Out.transcriptionStarted, Out.backendCalled s.audioChunks.flatten,
          Out.transcriptionDone ""]) := by
      rw [h0]
      unfold transcribeAndType
      rw [if_neg hne, if_neg hlong]
      simp [hok]
    rw [hs]
    refine ⟨?_, fun _ => rfl, fun h => absurd rfl h⟩
    simp
  · have hs : step chord (some f) s (Event.workerRun cfg t) =
        ({ s with workerActive := false, lastPasteTime := some t },
         [Out.transcriptionStarted, Out.backendCalled s.audioChunks.flatten,
          Out.pasted (if cfg.add_trailing_space then text ++ " " else text),
          Out.transcriptionDone
            (if cfg.add_trailing_space then text ++ " " else text)]) := by
      rw [h0]
      unfold transcribeAndType
      rw [if_neg hne, if_neg hlong]
      simp [hok, htext]
    rw [hs]
    refine ⟨?_, fun h => absurd h htext, fun _ => rfl⟩
    constructor
    · intro _; exact htext
    · intro _
      exact ⟨if cfg.add_trailing_space then text ++ " " else text, by simp⟩

/-- C8 witness: backend returns "hello", config has the trailing space on;
"hello " is pasted and reported, and the undo state is armed at time 9. -/
theorem C8_worker_success_injection_witness :
    ((∃ txt, Out.pasted txt ∈
        (step chordRC (some wBackend) wLong (Event.workerRun ⟨true⟩ 9)).2) ↔
        ("hello" : String) ≠ "")
    ∧ (("hello" : String) = "" →
        step chordRC (some wBackend) wLong (Event.workerRun ⟨true⟩ 9) =
        ({ wLong with workerActive := false },
         [Out.transcriptionStarted, Out.backendCalled wLong.audioChunks.flatten,
          Out.transcriptionDone ""]))
    ∧ (("hello" : String) ≠ "" →
        step chordRC (some wBackend) wLong (Event.workerRun ⟨true⟩ 9) =
        ({ wLong with workerActive := false, lastPasteTime := some 9 },
         [Out.transcriptionStarted, Out.backendCalled wLong.audioChunks.flatten,
          Out.pasted (if (Config.mk true).add_trailing_space then "hello" ++ " " else "hello"),
          Out.transcriptionDone
            (if (Config.mk true).add_trailing_space then "hello" ++ " " else "hello")])) :=
  C8_worker_success_injection chordRC wBackend ⟨true⟩ 9 wLong "hello" rfl
    wLong_not_short rfl

/-- C3 (amended): `recordingStarted` fires only on a down-event of a
non-Escape vk key whose resulting held set contains the chord, delivered
while the listener is installed and the recording flag is clear — the flag,
not the spec phase: a transcription worker may still be in flight.  The
firing step emits exactly `[recordingStarted]` and sets the recording flag,
so a second fire needs an intervening transition back to not-recording:
at most one fire per excursion. -/
theorem C3_start_edge
    (chord : Finset Nat) (tf : Option (List Sample → Except String String))
    (s : EngineState) (e : Event)
    (h : Out.recordingStarted ∈ (step chord tf s e).2) :
    s.recording = false ∧ s.listenerActive = true
    ∧ (step chord tf s e).1.recording = true
    ∧ (step chord tf s e).2 = [Out.recordingStarted]
    ∧ ∃ vk t, e = Event.press (KeyEvt.code vk) t ∧ vk ≠ VK_ESCAPE
        ∧ chord ⊆ insert vk s.heldVk := by
  cases e with
  | press k t =>
      cases hl : s.listenerActive with
      | false => simp [step, hl] at h
      | true =>
          have hstep : step chord tf s (Event.press k t) = onPress chord k t s := by
            simp [step, hl]
          rw [hstep] at h ⊢
          cases k with
          | escKey => exact absurd h (handleEscape_no_start t s)
          | unknown => simp [onPress] at h
          | code vk =>
              by_cases hesc : vk = VK_ESCAPE
              · simp only [onPress, if_pos hesc] at h
                exact absurd h (handleEscape_no_start t s)
              · simp only [onPress, if_neg hesc] at h ⊢
                by_cases hcond : s.recording = false ∧ chord ⊆ insert vk s.heldVk
                · rw [if_pos hcond] at h ⊢
                  exact ⟨hcond.1, by trivial, rfl, rfl, vk, t, rfl, hesc, hcond.2⟩
                · rw [if_neg hcond] at h
                  simp at h
  | release k t =>
      exfalso
      cases hl : s.listenerActive with
      | false => simp [step, hl] at h
      | true =>
          have hstep : step chord tf s (Event.release k t) = onRelease chord k t s := by
            simp [step, hl]
          rw [hstep] at h
          exact onRelease_no_start chord k t s h
  | chunk c =>
      exfalso
      cases ho : s.streamOpen with
      | false => simp [step, ho] at h
      | true => simp [step, ho] at h
  | workerRun cfg t =>
      exfalso
      cases hwa : s.workerActive with
      | false => simp [step, hwa] at h
      | true =>
          have hstep : step chord tf s (Event.workerRun cfg t) =
              transcribeAndType tf cfg t s := by
            simp [step, hwa]
          rw [hstep] at h
          exact transcribeAndType_no_start tf cfg t s h
  | engineStop t =>
      exfalso
      cases hr : s.recording with
      | false => simp [step, stopEngine, hr] at h
      | true =>
          have hstep : (step chord tf s (Event.engineStop t)).2 =
              (stopRecording t s).2 := by
            simp [step, stopEngine, hr]
          rw [hstep] at h
          exact stopRecording_snd_no_start t s h

/-- C3 witness: pressing the right-command chord from the initial state
fires a start whose pre-state satisfies every conclusion. -/
theorem C3_start_edge_witness :
    initState.recording = false ∧ initState.listenerActive = true
    ∧ (step chordRC none initState
        (Event.press (KeyEvt.code VK_RIGHT_CMD) 0)).1.recording = true
    ∧ (step chordRC none initState
        (Event.press (KeyEvt.code VK_RIGHT_CMD) 0)).2 = [Out.recordingStarted]
    ∧ ∃ vk t, Event.press (KeyEvt.code VK_RIGHT_CMD) (0 : ℚ) =
          Event.press (KeyEvt.code vk) t ∧ vk ≠ VK_ESCAPE
        ∧ chordRC ⊆ insert vk initState.heldVk :=
  C3_start_edge chordRC none initState
    (Event.press (KeyEvt.code VK_RIGHT_CMD) 0) (by decide)

/-- C3 counterexample to the claim as stated: with the dispatched worker
still in flight (spec phase Transcribing, not Idle), pressing the chord
again fires `recordingStarted` — `_on_press` checks only the `_recording`
flag, not the phase. -/
theorem C3_start_while_transcribing_cex :
    specPhase c3state = Phase.Transcribing
    ∧ Out.recordingStarted ∈
        (step chordRC none c3state
          (Event.press (KeyEvt.code VK_RIGHT_CMD) 2)).2 := by
  constructor
  · decide
  · decide

/-- C1: evaluation of the failing input.  `_start_recording` does not clear
the `_cancelled` flag, so after cancelling session 1 the flag survives into
session 2: the flag is still set when session 2 stops (take 5 of the
trace), and the final release therefore spawns no worker and emits no
`transcriptionStarted` — the uncancelled session 2 is silently discarded,
its stop merely consuming the stale flag (final `cancelled = false`).  Both
sessions started (`recordingStarted` twice) and only session 1 was
cancelled (`recordingCancelled` once). -/
theorem C1_stale_cancel_discards_next_session :
    (runEngine chordRC none initState (c1trace.take 5)).1.cancelled = true
    ∧ (runEngine chordRC none initState c1trace).2.count Out.recordingStarted = 2
    ∧ (runEngine chordRC none initState c1trace).2.count Out.recordingCancelled = 1
    ∧ Out.recordingStopped ∈ (runEngine chordRC none initState c1trace).2
    ∧ Out.workerSpawned ∉ (runEngine chordRC none initState c1trace).2
    ∧ Out.transcriptionStarted ∉ (runEngine chordRC none initState c1trace).2
    ∧ (runEngine chordRC none initState c1trace).1.cancelled = false := by
  refine ⟨?_, ?_, ?_, ?_, ?_, ?_, ?_⟩ <;> decide

/-- After `stop()` the listener is gone; with no pending worker either, no
event can dispatch, start a transcription, or reach the backend, and both
flags stay down. -/
lemma step_inert (chord : Finset Nat)
    (tf : Option (List Sample → Except String String)) (s : EngineState)
    (e : Event) (hl : s.listenerActive = false) (hw : s.workerActive = false) :
    (step chord tf s e).1.listenerActive = false
    ∧ (step chord tf s e).1.workerActive = false
    ∧ Out.workerSpawned ∉ (step chord tf s e).2
    ∧ Out.transcriptionStarted ∉ (step chord tf s e).2
    ∧ ∀ a, Out.backendCalled a ∉ (step chord tf s e).2 := by
  cases e with
  | press k t => simp [step, hl, hw]
  | release k t => simp [step, hl, hw]
  | chunk c => cases ho : s.streamOpen <;> simp [step, ho, hl, hw]
  | workerRun cfg t => simp [step, hw, hl]
  | engineStop t =>
      cases hr : s.recording with
      | false => simp [step, stopEngine, hr, hl, hw]
      | true =>
          cases h0 : s.recordingStartTime <;>
            simp [step, stopEngine, hr, stopRecording, h0, hw]

/-- `step_inert`, extended along any event sequence. -/
lemma runEngine_inert (chord : Finset Nat)
    (tf : Option (List Sample → Except String String)) (evs : List Event) :
    ∀ s : EngineState, s.listenerActive = false → s.workerActive = false →
      Out.workerSpawned ∉ (runEngine chord tf s evs).2
      ∧ Out.transcriptionStarted ∉ (runEngine chord tf s evs).2
      ∧ ∀ a, Out.backendCalled a ∉ (runEngine chord tf s evs).2 := by
  induction evs with
  | nil => intro s hl hw; simp [runEngine]
  | cons e evs ih =>
      intro s hl hw
      have h1 := step_inert chord tf s e hl hw
      have h2 := ih (step chord tf s e).1 h1.1 h1.2.1
      simp only [runEngine, List.mem_append]
      refine ⟨?_, ?_, ?_⟩
      · rintro (h | h)
        · exact h1.2.2.1 h
        · exact h2.1 h
      · rintro (h | h)
        · exact h1.2.2.2.1 h
        · exact h2.2.1 h
      · intro a
        rintro (h | h)
        · exact h1.2.2.2.2 a h
        · exact h2.2.2 a h

/-- C9 (amended): calling the public `stop()` while a recording is in
progress, with no stale worker from an earlier session pending, stops the
recording — emitting exactly `recordingStopped` then the duration, so no
`recordingCancelled` and no `transcriptionStarted` — spawns no worker, and
afterwards (listener gone, no worker pending) no event sequence can ever
dispatch a worker, start a transcription, or hand any audio to the backend:
the stopped session's buffer is never transcribed. -/
theorem C9_stop_while_recording_discards
    (chord : Finset Nat) (tf : Option (List Sample → Except String String))
    (s : EngineState) (t t0 : ℚ)
    (hr : s.recording = true) (h0 : s.recordingStartTime = some t0)
    (hw : s.workerActive = false) :
    step chord tf s (Event.engineStop t) =
      ({ s with recording := false, recordingStartTime := none,
                streamOpen := false, listenerActive := false },
       [Out.recordingStopped, Out.recordingDuration (t - t0)])
    ∧ ∀ evs : List Event,
        Out.workerSpawned ∉
          (runEngine chord tf (step chord tf s (Event.engineStop t)).1 evs).2
        ∧ Out.transcriptionStarted ∉
          (runEngine chord tf (step chord tf s (Event.engineStop t)).1 evs).2
        ∧ ∀ a, Out.backendCalled a ∉
          (runEngine chord tf (step chord tf s (Event.engineStop t)).1 evs).2 := by
  have hs : step chord tf s (Event.engineStop t) =
      ({ s with recording := false, recordingStartTime := none,
                streamOpen := false, listenerActive := false },
       [Out.recordingStopped, Out.recordingDuration (t - t0)]) := by
    simp [step, stopEngine, hr, stopRecording, h0]
  refine ⟨hs, fun evs => ?_⟩
  rw [hs]
  exact runEngine_inert chord tf evs _ rfl hw

/-- C9 witness: `stop()` at time 2 during the recording `wRecHeld` (started
at 0, no pending worker). -/
theorem C9_stop_while_recording_discards_witness :
    step chordRC none wRecHeld (Event.engineStop 2) =
      ({ wRecHeld with recording := false, recordingStartTime := none,
                       streamOpen := false, listenerActive := false },
       [Out.recordingStopped, Out.recordingDuration ((2 : ℚ) - 0)])
    ∧ ∀ evs : List Event,
        Out.workerSpawned ∉
          (runEngine chordRC none
            (step chordRC none wRecHeld (Event.engineStop 2)).1 evs).2
        ∧ Out.transcriptionStarted ∉
          (runEngine chordRC none
            (step chordRC none wRecHeld (Event.engineStop 2)).1 evs).2
        ∧ ∀ a, Out.backendCalled a ∉
          (runEngine chordRC none
            (step chordRC none wRecHeld (Event.engineStop 2)).1 evs).2 :=
  C9_stop_while_recording_discards chordRC none wRecHeld 2 0 rfl rfl rfl

/-- C9 counterexample to the claim as stated: `stop()` is called at time 3
while session B is recording; the stop itself spawns nothing, but session
A's still-pending worker then runs and hands session B's buffered audio
(the 4800 ones) to the backend — the stopped session's audio is not
"discarded without ever dispatching transcription". -/
theorem C9_stale_worker_transcribes_stopped_buffer_cex :
    c9state.recording = true
    ∧ c9state.workerActive = true
    ∧ Out.workerSpawned ∉
        (step chordRC (some c9backend) c9state (Event.engineStop 3)).2
    ∧ Out.backendCalled cB ∈
        (step chordRC (some c9backend)
          (step chordRC (some c9backend) c9state (Event.engineStop 3)).1
          (Event.workerRun ⟨true⟩ 4)).2 := by
  have h5 : c9state = wB := by
    simp [c9state, runEngine, step, onPress, onRelease, handleEscape,
          startRecording, stopRecording, chordRC, initState, wB,
          VK_RIGHT_CMD, VK_ESCAPE]
  have h6 : step chordRC (some c9backend) wB (Event.engineStop 3) =
      ({ wB with recording := false, recordingStartTime := none,
                 streamOpen := false, listenerActive := false },
       [Out.recordingStopped, Out.recordingDuration ((3 : ℚ) - 2)]) := by
    simp [step, stopEngine, stopRecording, wB]
  have hng : ¬ ((((cB.length : ℚ))) / 16000 < 3 / 10) := by
    have hcb : cB.length = 4800 := List.length_replicate 4800 1
    rw [hcb]
    norm_num
  have h7 : step chordRC (some c9backend)
      ({ wB with recording := false, recordingStartTime := none,
                 streamOpen := false, listenerActive := false } : EngineState)
      (Event.workerRun ⟨true⟩ 4) =
      transcribeAndType (some c9backend) ⟨true⟩ 4
        ({ wB with recording := false, recordingStartTime := none,
                   streamOpen := false, listenerActive := false }) := by
    simp [step, wB]
  refine ⟨by rw [h5]; rfl, by rw [h5]; rfl, ?_, ?_⟩
  · rw [h5, h6]
    simp
  · rw [h5, h6]
    simp only
    rw [h7]
    unfold transcribeAndType
    simp only [wB]
    rw [if_neg (by simp : ¬ ([cB] : List (List Sample)) = [])]
    rw [show ([cB] : List (List Sample)).flatten = cB from by simp]
    rw [if_neg hng]
    simp [c9backend]

/-- C2 counterexample to the claim as stated: a paste operation in which
the initial `pbpaste` raises (modelled by `readResult = none`, the except
branch that sets `old_clip = ""`) while the clipboard actually holds
"important" ends with the clipboard set to `""`, not to the pre-paste value
"important". -/
theorem C2_clipboard_restore_cex :
    runClip "important" (autoTypeOps none true "hello ") = ""
    ∧ ¬ runClip "important" (autoTypeOps none true "hello ") = "important" := by
  constructor
  · rfl
  · intro h
    simp [runClip, autoTypeOps] at h

/-- C2 (amended): every paste sequence ends by writing back the snapshot
taken in step 1 — the actual pre-paste clipboard value whenever the initial
read succeeded, the empty string when it raised — and this final restore
write is the last operation of the sequence for every value of `pasteOk`,
i.e. it is attempted unconditionally even when the synthetic paste
keystroke fails (the keystroke is fire-and-forget and cannot divert control
flow). -/
theorem C2_clipboard_restored_to_snapshot
    (preClip text : String) (readResult : Option String) (pasteOk : Bool) :
    runClip preClip (autoTypeOps readResult pasteOk text) = readResult.getD ""
    ∧ (readResult = some preClip →
        runClip preClip (autoTypeOps readResult pasteOk text) = preClip)
    ∧ (autoTypeOps readResult pasteOk text).getLast? =
        some (ClipOp.writeClip (readResult.getD "")) := by
  refine ⟨?_, ?_, ?_⟩
  · simp [autoTypeOps, runClip]
  · rintro rfl
    simp [autoTypeOps, runClip]
  · simp [autoTypeOps]

/-- C2 witness: read succeeded with "keep" on the clipboard and the paste
keystroke failed; the clipboard still ends as "keep". -/
theorem C2_clipboard_restored_to_snapshot_witness :
    runClip "keep" (autoTypeOps (some "keep") false "hello ") =
      (some "keep" : Option String).getD ""
    ∧ ((some "keep" : Option String) = some "keep" →
        runClip "keep" (autoTypeOps (some "keep") false "hello ") = "keep")
    ∧ (autoTypeOps (some "keep") false "hello ").getLast? =
        some (ClipOp.writeClip ((some "keep" : Option String).getD "")) :=
  C2_clipboard_restored_to_snapshot "keep" "hello " (some "keep") false

/-- C10: when the pre-paste `pbpaste` raises (`readResult = none`), the
paste still proceeds — the transcribed text is copied to the clipboard and
the paste keystroke is posted — and the final restore writes the empty
string, so a non-empty prior clipboard value is lost. -/
theorem C10_read_failure_restores_empty (preClip text : String) (pasteOk : Bool)
    (hne : preClip ≠ "") :
    runClip preClip (autoTypeOps none pasteOk text) = ""
    ∧ runClip preClip (autoTypeOps none pasteOk text) ≠ preClip
    ∧ ClipOp.writeClip text ∈ autoTypeOps none pasteOk text
    ∧ ClipOp.pasteKeystroke pasteOk ∈ autoTypeOps none pasteOk text := by
  have h1 : runClip preClip (autoTypeOps none pasteOk text) = "" := by
    simp [autoTypeOps, runClip]
  refine ⟨h1, ?_, by simp [autoTypeOps], by simp [autoTypeOps]⟩
  rw [h1]
  exact fun h => hne h.symm

/-- C10 witness: prior clipboard "important" is replaced by the empty
string after a paste whose initial read raised. -/
theorem C10_read_failure_restores_empty_witness :
    runClip "important" (autoTypeOps none true "hello ") = ""
    ∧ runClip "important" (autoTypeOps none true "hello ") ≠ "important"
    ∧ ClipOp.writeClip "hello " ∈ autoTypeOps none true "hello "
    ∧ ClipOp.pasteKeystroke true ∈ autoTypeOps none true "hello " :=
  C10_read_failure_restores_empty "important" "hello " true (by decide)

end JustDictate
